import Mathlib

/-!
Shallow embedding of `coloredlogs/converter.py` (python-coloredlogs):
conversion of text with ANSI SGR escape sequences to HTML.

Python strings are modelled as `List Char`; Python exceptions
(`ValueError` from `int()` / `parse_hex_color`) are modelled with
`Except Unit`.  Each definition mirrors one function or expression of
the source file; comments point at the corresponding source lines.
-/

/-- Characters of a Lean string literal, used to write Python string
literals concisely. -/
def pyStr (s : String) : List Char := s.data

/-- Python `\s` (the ASCII fragment of the whitespace class used by
`TOKEN_PATTERN`; the exotic Unicode whitespace characters are not
modelled). -/
def isPySpace (c : Char) : Bool :=
  c == ' ' || c == '\t' || c == '\n' || c == '\r' || c == '\x0b' || c == '\x0c'

/-- The character class `[^\s\x1b]` scanned after a URL scheme in
`TOKEN_PATTERN`. -/
def urlChar (c : Char) : Bool :=
  !(isPySpace c) && c != '\x1b'

/-- The alternation `(?:https?://|www\.)` of `TOKEN_PATTERN`: when the
input starts with one of the three URL openers, the matched opener and
the remainder. -/
def schemeSplit (cs : List Char) : Option (List Char × List Char) :=
  if (pyStr "http://").isPrefixOf cs then some (pyStr "http://", cs.drop 7)
  else if (pyStr "https://").isPrefixOf cs then some (pyStr "https://", cs.drop 8)
  else if (pyStr "www.").isPrefixOf cs then some (pyStr "www.", cs.drop 4)
  else none

/-- The URL branch of `TOKEN_PATTERN`: a scheme/\"www.\" opener followed
by one or more non-whitespace, non-escape characters. -/
def urlMatch (cs : List Char) : Option (List Char × List Char) :=
  match schemeSplit cs with
  | none => none
  | some (p, r) =>
    let run := r.takeWhile urlChar
    if run.isEmpty then none
    else some (p ++ run, r.dropWhile urlChar)

/-- The non-greedy scan `.*?m` of `TOKEN_PATTERN`: characters up to the
first `m`, failing when a newline (which `.` does not match) or the end
of input comes first.  Returns the body before the `m` and the rest. -/
def scanToM : List Char → Option (List Char × List Char)
  | [] => none
  | c :: rest =>
    if c = 'm' then some ([], rest)
    else if c = '\n' then none
    else (scanToM rest).map (fun br => (c :: br.1, br.2))

/-- The escape-sequence branch `\x1b\[.*?m` of `TOKEN_PATTERN`. -/
def ansiMatch (cs : List Char) : Option (List Char × List Char) :=
  match cs with
  | a :: b :: rest =>
    if a = '\x1b' ∧ b = '[' then
      match scanToM rest with
      | some (body, r) => some (a :: b :: (body ++ ['m']), r)
      | none => none
    else none
  | _ => none

/-- A `TOKEN_PATTERN` match attempt at the current position (the URL
alternative is tried before the escape-sequence alternative, as in the
regular expression). -/
def findMatch (cs : List Char) : Option (List Char × List Char) :=
  match urlMatch cs with
  | some m => some m
  | none => ansiMatch cs

/-- One left-to-right scan of the input, as performed by
`TOKEN_PATTERN.split`: plain-text stretches alternate with matched
tokens (empty plain stretches included, exactly as `re.split` with a
capture group produces them).  `fuel` bounds the recursion; `tokenize`
supplies enough fuel for the scan to finish. -/
def scanAux : Nat → List Char → List Char → List (List Char)
  | _, acc, [] => [acc.reverse]
  | 0, acc, cs => [acc.reverse ++ cs]
  | fuel + 1, acc, c :: cs =>
    match findMatch (c :: cs) with
    | some (tok, rest) => acc.reverse :: tok :: scanAux fuel [] rest
    | none => scanAux fuel (c :: acc) cs

/-- `TOKEN_PATTERN.split(text)` (converter.py line 167). -/
def tokenize (cs : List Char) : List (List Char) :=
  scanAux cs.length [] cs

/-- Python `str.split(';')`: always returns at least one piece; in
particular `''.split(';') == ['']`. -/
def splitSemi : List Char → List (List Char)
  | [] => [[]]
  | c :: rest =>
    match splitSemi rest with
    | [] => [[]]
    | g :: gs => if c = ';' then [] :: g :: gs else (c :: g) :: gs

/-- `EIGHT_COLOR_PALETTE` (converter.py lines 25-34). -/
def EIGHT_COLOR_PALETTE : List (List Char) :=
  [pyStr "#010101", pyStr "#DE382B", pyStr "#39B54A", pyStr "#FFC706",
   pyStr "#006FB8", pyStr "#762671", pyStr "#2CB5E9", pyStr "#CCC"]

/-- `BRIGHT_COLOR_PALETTE` (converter.py lines 48-57). -/
def BRIGHT_COLOR_PALETTE : List (List Char) :=
  [pyStr "#808080", pyStr "#F00", pyStr "#0F0", pyStr "#FF0",
   pyStr "#00F", pyStr "#F0F", pyStr "#0FF", pyStr "#FFF"]

/-- Value of a hexadecimal digit accepted by Python `int(_, 16)`. -/
def hexVal (c : Char) : Option Nat :=
  if c.isDigit then some (c.toNat - 48)
  else if 'a' ≤ c ∧ c ≤ 'f' then some (c.toNat - 87)
  else if 'A' ≤ c ∧ c ≤ 'F' then some (c.toNat - 55)
  else none

/-- `int(c1 ++ c2, 16)` for two hexadecimal digits. -/
def hexPair (c1 c2 : Char) : Option Nat :=
  match hexVal c1, hexVal c2 with
  | some a, some b => some (16 * a + b)
  | _, _ => none

/-- `parse_hex_color` (converter.py lines 296-320); `none` models the
`ValueError` raised on values that cannot be parsed. -/
def parse_hex_color (value : List Char) : Option (Nat × Nat × Nat) :=
  let v := if value.head? = some '#' then value.tail else value
  match v with
  | [a, b, c] =>
    match hexPair a a, hexPair b b, hexPair c c with
    | some r, some g, some bl => some (r, g, bl)
    | _, _, _ => none
  | [a, b, c, d, e, f] =>
    match hexPair a b, hexPair c d, hexPair e f with
    | some r, some g, some bl => some (r, g, bl)
    | _, _, _ => none
  | _ => none

/-- `select_text_color` (converter.py lines 323-337).  The comparison
`r * 0.299 + g * 0.587 + b * 0.114 > 186` is rendered in exact integer
arithmetic scaled by 1000. -/
def select_text_color (r g b : Nat) : List Char :=
  if 186000 < 299 * r + 587 * g + 114 * b then pyStr "#000" else pyStr "#FFF"

/-- One uppercase hexadecimal digit, as produced by the `%X` format. -/
def hexChar (n : Nat) : Char :=
  (pyStr "0123456789ABCDEF").getD n '0'

/-- `'%02X' % n` for `n < 256`. -/
def toHex2 (n : Nat) : List Char :=
  [hexChar (n / 16), hexChar (n % 16)]

/-- `'#%02X%02X%02X' % (r, g, b)` (converter.py line 211). -/
def formatHexColor (r g b : Nat) : List Char :=
  '#' :: (toHex2 r ++ toHex2 g ++ toHex2 b)

/-- The per-channel faint adjustment `max(0, n - 40)`
(converter.py line 212). -/
def faintChannel (n : Nat) : Int :=
  max 0 ((n : Int) - 40)

/-- The `compatible_text_styles` dictionary (converter.py lines
161-166); the keys are `str(ANSI_TEXT_STYLES[...])` for bold = 1,
strike_through = 9 and underline = 4. -/
def compatible_text_styles (code : List Char) : Option (List Char) :=
  if code = pyStr "1" then some (pyStr "font-weight:bold")
  else if code = pyStr "9" then some (pyStr "text-decoration:line-through")
  else if code = pyStr "4" then some (pyStr "text-decoration:underline")
  else none

/-- Python `str.isdigit` on one character: the ASCII decimal digits and
(the modelled fragment of) the Unicode characters with
`Numeric_Type=Digit`, such as the Latin-1 superscript digits, which
`str.isdigit` accepts although `int()` rejects them. -/
def pyIsDigit (c : Char) : Bool :=
  c.isDigit || c == '¹' || c == '²' || c == '³'

/-- Python `int(c)` on one character: only decimal digits are accepted;
anything else raises `ValueError` (modelled as `Except.error`). -/
def pyInt1 (c : Char) : Except Unit Nat :=
  if c.isDigit then Except.ok (c.toNat - 48) else Except.error ()

/-- The body of the colour branch given the selected palette entry
`css_color` (converter.py lines 198-214). -/
def colorStyles (is_faint is_inverse : Bool) (css_color : List Char) :
    Except Unit (List (List Char)) :=
  if is_inverse then
    match parse_hex_color css_color with
    | some (r, g, b) =>
      Except.ok [pyStr "background-color:" ++ css_color,
                 pyStr "color:" ++ select_text_color r g b]
    | none => Except.error ()
  else
    if is_faint then
      match parse_hex_color css_color with
      | some (r, g, b) =>
        Except.ok [pyStr "color:" ++
          formatHexColor (faintChannel r).toNat (faintChannel g).toNat
            (faintChannel b).toNat]
      | none => Except.error ()
    else Except.ok [pyStr "color:" ++ css_color]

/-- Palette selection and bounds check for a two-digit colour code
(converter.py lines 190-198): `color_index = int(code[1])`, emitted only
when `0 <= color_index < len(color_palette)`. -/
def colorFromPalette (is_faint is_inverse : Bool)
    (palette : List (List Char)) (c2 : Char) :
    Except Unit (List (List Char)) :=
  match pyInt1 c2 with
  | Except.error e => Except.error e
  | Except.ok color_index =>
    if color_index < palette.length then
      colorStyles is_faint is_inverse (palette.getD color_index [])
    else Except.ok []

/-- CSS declarations contributed by one code of the `for code in
ansi_codes` loop (converter.py lines 186-214). -/
def styleOfCode (is_faint is_inverse : Bool) (code : List Char) :
    Except Unit (List (List Char)) :=
  match compatible_text_styles code with
  | some s => Except.ok [s]
  | none =>
    match code with
    | [c1, c2] =>
      if pyIsDigit c1 && pyIsDigit c2 then
        if c1 = '3' then colorFromPalette is_faint is_inverse EIGHT_COLOR_PALETTE c2
        else if c1 = '9' then colorFromPalette is_faint is_inverse BRIGHT_COLOR_PALETTE c2
        else Except.ok []
      else Except.ok []
    | _ => Except.ok []

/-- The `styles` list accumulated over all codes of one escape sequence
(converter.py lines 183-214). -/
def buildStyles (is_faint is_inverse : Bool) :
    List (List Char) → Except Unit (List (List Char))
  | [] => Except.ok []
  | code :: rest =>
    match styleOfCode is_faint is_inverse code with
    | Except.error e => Except.error e
    | Except.ok l =>
      match buildStyles is_faint is_inverse rest with
      | Except.error e => Except.error e
      | Except.ok lr => Except.ok (l ++ lr)

/-- Python `';'.join(styles)`. -/
def joinSemi : List (List Char) → List Char
  | [] => []
  | [s] => s
  | s :: rest => s ++ ';' :: joinSemi rest

/-- `'<span style="%s">' % ';'.join(styles)` (converter.py line 216). -/
def spanMarkup (styles : List (List Char)) : List Char :=
  pyStr "<span style=\"" ++ joinSemi styles ++ pyStr "\">"

/-- The reset test `'0' in ansi_codes or not ansi_codes`
(converter.py line 178). -/
def resetCond (ansi_codes : List (List Char)) : Bool :=
  ansi_codes.contains (pyStr "0") || ansi_codes.isEmpty

/-- Everything appended to `output` while processing one escape-sequence
token whose split code list is `ansi_codes` (converter.py lines
171-218): the unconditional `</span>` on reset, followed by the new
`<span ...>` when any styles were collected. -/
def ansiPiece (ansi_codes : List (List Char)) : Except Unit (List Char) :=
  let closePart : List Char :=
    if resetCond ansi_codes then pyStr "</span>" else []
  match buildStyles (ansi_codes.contains (pyStr "2"))
      (ansi_codes.contains (pyStr "7")) ansi_codes with
  | Except.error e => Except.error e
  | Except.ok styles =>
    Except.ok (closePart ++ (if styles.isEmpty then [] else spanMarkup styles))

/-- `html_encode` (converter.py lines 282-293): four sequential
replacements, ampersand first. -/
def replaceChar (c : Char) (rep : List Char) : List Char → List Char
  | [] => []
  | x :: xs => (if x = c then rep else [x]) ++ replaceChar c rep xs

/-- `html_encode` (converter.py lines 282-293). -/
def html_encode (t : List Char) : List Char :=
  replaceChar '"' (pyStr "&quot;")
    (replaceChar '>' (pyStr "&gt;")
      (replaceChar '<' (pyStr "&lt;")
        (replaceChar '&' (pyStr "&amp;") t)))

/-- Python `'://' in token` / substring membership. -/
def occursIn (pat : List Char) : List Char → Bool
  | [] => pat.isEmpty
  | c :: cs => pat.isPrefixOf (c :: cs) || occursIn pat cs

/-- `token.startswith(('http://', 'https://', 'www.'))`
(converter.py line 168). -/
def startsWithScheme (tok : List Char) : Bool :=
  (pyStr "http://").isPrefixOf tok || (pyStr "https://").isPrefixOf tok ||
    (pyStr "www.").isPrefixOf tok

/-- Processing of one token of the split (converter.py lines 167-221).
Besides the emitted HTML piece, the second component records the value
the loop variable `code` is rebound to: the inner `for code in
ansi_codes` loop shadows the `code` keyword parameter of `convert`, so
after an escape-sequence token the variable holds the last code string
of that token (`none` = the token did not rebind it). -/
def processToken (tok : List Char) :
    Except Unit (List Char × Option (List Char)) :=
  if startsWithScheme tok then
    let url := if occursIn (pyStr "://") tok then tok else pyStr "http://" ++ tok
    Except.ok (pyStr "<a href=\"" ++ html_encode url ++
      pyStr "\" style=\"color:inherit\">" ++ html_encode tok ++ pyStr "</a>", none)
  else if (pyStr "\x1b[").isPrefixOf tok then
    let ansi_codes := splitSemi ((tok.drop 2).dropLast)
    match ansiPiece ansi_codes with
    | Except.error e => Except.error e
    | Except.ok piece => Except.ok (piece, ansi_codes.getLast?)
  else Except.ok (html_encode tok, none)

/-- The token loop of `convert` (converter.py lines 167-222): the
concatenated `output` pieces together with the final rebinding state of
the shadowed `code` variable (the last rebinding wins). -/
def convertPieces : List (List Char) → Except Unit (List Char × Option (List Char))
  | [] => Except.ok ([], none)
  | t :: ts =>
    match processToken t with
    | Except.error e => Except.error e
    | Except.ok (piece, rb) =>
      match convertPieces ts with
      | Except.error e => Except.error e
      | Except.ok (rest, rbRest) => Except.ok (piece ++ rest, rbRest <|> rb)

/-- `text.replace('\r\n', '\n')` (converter.py line 247). -/
def replaceCRLF : List Char → List Char
  | '\r' :: '\n' :: rest => '\n' :: replaceCRLF rest
  | c :: rest => c :: replaceCRLF rest
  | [] => []

/-- `text.replace('\n', '<br>\n')` (converter.py line 249). -/
def replaceNewline : List Char → List Char
  | '\n' :: rest => pyStr "<br>\n" ++ replaceNewline rest
  | c :: rest => c :: replaceNewline rest
  | [] => []

/-- `text.expandtabs(tabsize)` (converter.py line 251): the column is
tracked from the start of the current line; a tab advances it to the
next multiple of `tabsize`; `\n` and `\r` reset it. -/
def expandtabs (tabsize : Nat) : List Char → Nat → List Char
  | [], _ => []
  | c :: rest, col =>
    if c = '\t' then
      if tabsize = 0 then expandtabs tabsize rest col
      else
        let pad := tabsize - col % tabsize
        List.replicate pad ' ' ++ expandtabs tabsize rest (col + pad)
    else if c = '\n' ∨ c = '\r' then c :: expandtabs tabsize rest 0
    else c :: expandtabs tabsize rest (col + 1)

/-- `re.sub(INDENT_PATTERN, encode_whitespace_cb, text)` (converter.py
line 255): each space of a leading-space run (at the start of the
string or directly after a newline — `^ +` under `re.MULTILINE`) is
replaced by one `&nbsp;` entity; replacing each such space separately
yields the same string as replacing the whole run at once. -/
def indentPass : Bool → List Char → List Char
  | _, [] => []
  | atStart, c :: rest =>
    if atStart ∧ c = ' ' then pyStr "&nbsp;" ++ indentPass true rest
    else if c = '\n' then '\n' :: indentPass true rest
    else c :: indentPass false rest

/-- `re.sub(' {2,}', encode_whitespace_cb, text)` (converter.py line
265): each maximal run of two or more spaces becomes the same number of
`&nbsp;` entities; single spaces are kept.  The Boolean records whether
the scan is inside a run that is already being converted. -/
def runsPass : Bool → List Char → List Char
  | _, [] => []
  | inRun, [c] => if inRun ∧ c = ' ' then pyStr "&nbsp;" else [c]
  | inRun, c :: d :: rest =>
    if inRun ∧ c = ' ' then pyStr "&nbsp;" ++ runsPass true (d :: rest)
    else if c = ' ' ∧ d = ' ' then pyStr "&nbsp;&nbsp;" ++ runsPass true rest
    else c :: runsPass false (d :: rest)

/-- `encode_whitespace` (converter.py lines 229-266). -/
def encode_whitespace (text : List Char) (tabsize : Nat) : List Char :=
  runsPass false (indentPass true (expandtabs tabsize (replaceNewline (replaceCRLF text)) 0))

/-- `convert` (converter.py lines 149-226).  The final `if code:` test
uses the `code` variable as left by the token loop: when an
escape-sequence token rebound it, its truthiness is that of the last
ANSI code string of the last such token. -/
def convertE (text : List Char) (code : Bool) (tabsize : Nat) :
    Except Unit (List Char) :=
  match convertPieces (tokenize text) with
  | Except.error e => Except.error e
  | Except.ok (html0, rb) =>
    let html := encode_whitespace html0 tabsize
    let wrapFlag :=
      match rb with
      | none => code
      | some s => !s.isEmpty
    Except.ok (if wrapFlag then pyStr "<code>" ++ html ++ pyStr "</code>" else html)

/-- Number of positions at which `pat` occurs in a string. -/
def countOcc (pat : List Char) : List Char → Nat
  | [] => 0
  | c :: cs => (if pat.isPrefixOf (c :: cs) then 1 else 0) + countOcc pat cs

/-- `n` copies of the `&nbsp;` entity. -/
def nbsp (n : Nat) : List Char :=
  (List.replicate n (pyStr "&nbsp;")).flatten

/-! Helper lemmas about the tokenizer. -/

lemma isPrefixOf_append_drop :
    ∀ (p cs : List Char), p.isPrefixOf cs = true → p ++ cs.drop p.length = cs
  | [], cs, _ => by simp
  | a :: as, [], h => by simp [List.isPrefixOf] at h
  | a :: as, b :: bs, h => by
    simp only [List.isPrefixOf, Bool.and_eq_true, beq_iff_eq] at h
    obtain ⟨h1, h2⟩ := h
    simpa [h1] using isPrefixOf_append_drop as bs h2

lemma schemeSplit_spec {cs p r : List Char}
    (h : schemeSplit cs = some (p, r)) : p ++ r = cs ∧ p ≠ [] := by
  unfold schemeSplit at h
  split_ifs at h with h1 h2 h3 <;> cases h
  · exact ⟨isPrefixOf_append_drop _ _ h1, by decide⟩
  · exact ⟨isPrefixOf_append_drop _ _ h2, by decide⟩
  · exact ⟨isPrefixOf_append_drop _ _ h3, by decide⟩

lemma scanToM_spec :
    ∀ {cs b r : List Char}, scanToM cs = some (b, r) → b ++ 'm' :: r = cs := by
  intro cs
  induction cs with
  | nil => intro b r h; simp [scanToM] at h
  | cons c rest ih =>
    intro b r h
    unfold scanToM at h
    split_ifs at h with h1 h2
    · cases h; simp [h1]
    · cases hm : scanToM rest with
      | none => rw [hm] at h; cases h
      | some br =>
        obtain ⟨b', r'⟩ := br
        rw [hm, Option.map_some'] at h
        cases h
        simpa using ih hm

lemma urlMatch_spec {cs t r : List Char}
    (h : urlMatch cs = some (t, r)) : t ++ r = cs ∧ t ≠ [] := by
  unfold urlMatch at h
  cases hs : schemeSplit cs with
  | none => rw [hs] at h; cases h
  | some pr =>
    obtain ⟨p, rr⟩ := pr
    rw [hs] at h
    simp only at h
    obtain ⟨hpr, hpne⟩ := schemeSplit_spec hs
    split_ifs at h with hrun
    cases h
    constructor
    · rw [List.append_assoc, List.takeWhile_append_dropWhile, hpr]
    · intro habs
      exact hpne (List.append_eq_nil.1 habs).1

lemma ansiMatch_spec {cs t r : List Char}
    (h : ansiMatch cs = some (t, r)) : t ++ r = cs ∧ t ≠ [] := by
  unfold ansiMatch at h
  match cs, h with
  | [], h => cases h
  | [a], h => cases h
  | a :: b :: rest, h =>
    simp only at h
    split_ifs at h with hab
    cases hm : scanToM rest with
    | none => rw [hm] at h; cases h
    | some br =>
      obtain ⟨body, rr⟩ := br
      rw [hm] at h
      cases h
      refine ⟨?_, by simp⟩
      have := scanToM_spec hm
      simp [this]

lemma findMatch_spec {cs t r : List Char}
    (h : findMatch cs = some (t, r)) : t ++ r = cs ∧ t ≠ [] := by
  unfold findMatch at h
  cases hu : urlMatch cs with
  | some m => rw [hu] at h; cases h; exact urlMatch_spec hu
  | none => rw [hu] at h; exact ansiMatch_spec h

lemma scanAux_flatten :
    ∀ (fuel : Nat) (acc cs : List Char), cs.length ≤ fuel →
      (scanAux fuel acc cs).flatten = acc.reverse ++ cs := by
  intro fuel
  induction fuel with
  | zero =>
    intro acc cs hlen
    cases cs with
    | nil => simp [scanAux]
    | cons c cs => simp at hlen
  | succ fuel ih =>
    intro acc cs hlen
    cases cs with
    | nil => simp [scanAux]
    | cons c cs =>
      simp only [scanAux]
      cases hm : findMatch (c :: cs) with
      | none =>
        have : cs.length ≤ fuel := by simpa using Nat.le_of_succ_le_succ hlen
        rw [ih (c :: acc) cs this]
        simp
      | some tr =>
        obtain ⟨tok, rest⟩ := tr
        obtain ⟨heq, hne⟩ := findMatch_spec hm
        have hlen' : cs.length + 1 ≤ fuel + 1 := by simpa using hlen
        have hlt : rest.length ≤ fuel := by
          have hl : tok.length + rest.length = cs.length + 1 := by
            have := congrArg List.length heq
            simpa [List.length_append] using this
          have htok : 1 ≤ tok.length := by
            cases tok with
            | nil => exact absurd rfl hne
            | cons x xs => simp
          omega
        simp only [List.flatten_cons]
        rw [ih [] rest hlt]
        simp [← List.append_assoc, heq]

/-- C7: for every input string, the substrings produced by the
tokenizer, concatenated in order, reproduce the input exactly. -/
theorem tokenize_covers (cs : List Char) : (tokenize cs).flatten = cs := by
  simpa [tokenize] using scanAux_flatten cs.length [] cs le_rfl

/-! Helper lemmas about `occursIn` and the characters of style strings. -/

lemma isPrefixOf_self_append : ∀ (l t : List Char), l.isPrefixOf (l ++ t) = true
  | [], t => by cases t <;> rfl
  | a :: as, t => by simp [List.isPrefixOf, isPrefixOf_self_append as t]

lemma occursIn_self_append : ∀ (pat x : List Char), occursIn pat (pat ++ x) = true
  | [], x => by cases x <;> simp [occursIn, List.isPrefixOf]
  | p :: ps, x => by
    show occursIn (p :: ps) (p :: (ps ++ x)) = true
    simp [occursIn, isPrefixOf_self_append]

lemma occursIn_head_ne (a : Char) (ps : List Char) :
    ∀ cs : List Char, a ∉ cs → occursIn (a :: ps) cs = false := by
  intro cs
  induction cs with
  | nil => intro _; rfl
  | cons c cs ih =>
    intro h
    simp only [List.mem_cons, not_or] at h
    obtain ⟨h1, h2⟩ := h
    have hb : (a == c) = false := beq_eq_false_iff_ne.2 h1
    simp [occursIn, List.isPrefixOf, hb, ih h2]

lemma getD_ne_of_all {l : List Char} {d c : Char} (hl : ∀ x ∈ l, x ≠ c) (hd : d ≠ c) :
    ∀ n, l.getD n d ≠ c := by
  intro n
  induction l generalizing n with
  | nil => simpa [List.getD] using hd
  | cons x xs ih =>
    cases n with
    | zero => simpa using hl x (List.mem_cons_self x xs)
    | succ n => simpa using ih (fun y hy => hl y (List.mem_cons_of_mem x hy)) n

lemma hexChar_ne_lt (n : Nat) : hexChar n ≠ '<' := by
  unfold hexChar
  exact getD_ne_of_all (by decide) (by decide) n

lemma toHex2_no_lt (n : Nat) : '<' ∉ toHex2 n := by
  intro hm
  simp only [toHex2, List.mem_cons, List.not_mem_nil, or_false] at hm
  rcases hm with h | h
  · exact hexChar_ne_lt _ h.symm
  · exact hexChar_ne_lt _ h.symm

lemma formatHexColor_no_lt (a b c : Nat) : '<' ∉ formatHexColor a b c := by
  intro hm
  simp only [formatHexColor, List.mem_cons, List.mem_append] at hm
  rcases hm with h | (h | h) | h
  · exact absurd h (by decide)
  · exact toHex2_no_lt a h
  · exact toHex2_no_lt b h
  · exact toHex2_no_lt c h

lemma select_text_color_no_lt (r g b : Nat) : '<' ∉ select_text_color r g b := by
  unfold select_text_color
  split_ifs <;> decide

lemma getD_entry_no_lt (l : List (List Char)) (hl : ∀ s ∈ l, '<' ∉ s) :
    ∀ n, '<' ∉ l.getD n [] := by
  intro n
  induction l generalizing n with
  | nil => simp [List.getD]
  | cons x xs ih =>
    cases n with
    | zero => simpa using hl x (List.mem_cons_self x xs)
    | succ n => simpa using ih (fun s hs => hl s (List.mem_cons_of_mem x hs)) n

lemma no_lt_append {a b : List Char} (ha : '<' ∉ a) (hb : '<' ∉ b) : '<' ∉ a ++ b := by
  intro h
  rcases List.mem_append.1 h with h | h
  · exact ha h
  · exact hb h

lemma colorStyles_no_lt {f i : Bool} {css : List Char} {l : List (List Char)}
    (hcss : '<' ∉ css) (h : colorStyles f i css = Except.ok l) :
    ∀ s ∈ l, '<' ∉ s := by
  unfold colorStyles at h
  split_ifs at h with hi hf
  · cases hp : parse_hex_color css with
    | none => rw [hp] at h; cases h
    | some rgb =>
      obtain ⟨r, g, b⟩ := rgb
      rw [hp] at h
      cases h
      intro s hs
      rcases List.mem_cons.1 hs with h1 | hs2
      · subst h1; exact no_lt_append (by decide) hcss
      rcases List.mem_cons.1 hs2 with h2 | h3
      · subst h2
        exact no_lt_append (by decide) (select_text_color_no_lt r g b)
      · cases h3
  · cases hp : parse_hex_color css with
    | none => rw [hp] at h; cases h
    | some rgb =>
      obtain ⟨r, g, b⟩ := rgb
      rw [hp] at h
      cases h
      intro s hs
      rcases List.mem_cons.1 hs with h1 | h2
      · subst h1; exact no_lt_append (by decide) (formatHexColor_no_lt _ _ _)
      · cases h2
  · cases h
    intro s hs
    rcases List.mem_cons.1 hs with h1 | h2
    · subst h1; exact no_lt_append (by decide) hcss
    · cases h2

lemma colorFromPalette_no_lt {f i : Bool} {palette : List (List Char)} {c2 : Char}
    {l : List (List Char)} (hpal : ∀ s ∈ palette, '<' ∉ s)
    (h : colorFromPalette f i palette c2 = Except.ok l) : ∀ s ∈ l, '<' ∉ s := by
  unfold colorFromPalette at h
  cases hint : pyInt1 c2 with
  | error e => rw [hint] at h; cases h
  | ok idx =>
    rw [hint] at h
    dsimp only at h
    split_ifs at h with hlt
    · exact colorStyles_no_lt (getD_entry_no_lt palette hpal idx) h
    · cases h; intro s hs; cases hs

lemma styleOfCode_no_lt {f i : Bool} {code : List Char} {l : List (List Char)}
    (h : styleOfCode f i code = Except.ok l) : ∀ s ∈ l, '<' ∉ s := by
  unfold styleOfCode at h
  cases hc : compatible_text_styles code with
  | some st =>
    rw [hc] at h
    cases h
    intro s hs
    rcases List.mem_cons.1 hs with h1 | h2
    · subst h1
      unfold compatible_text_styles at hc
      split_ifs at hc <;> cases hc <;> decide
    · cases h2
  | none =>
    rw [hc] at h
    dsimp only at h
    match code, h with
    | [], h => cases h; intro s hs; cases hs
    | [c1], h => cases h; intro s hs; cases hs
    | c1 :: c2 :: c3 :: cr, h => cases h; intro s hs; cases hs
    | [c1, c2], h =>
      dsimp only at h
      split_ifs at h with hd h3 h9
      · exact colorFromPalette_no_lt (by decide) h
      · exact colorFromPalette_no_lt (by decide) h
      · cases h; intro s hs; cases hs
      · cases h; intro s hs; cases hs

lemma buildStyles_no_lt {f i : Bool} :
    ∀ {codes styles : List (List Char)},
      buildStyles f i codes = Except.ok styles → ∀ s ∈ styles, '<' ∉ s := by
  intro codes
  induction codes with
  | nil => intro styles h; cases h; intro s hs; cases hs
  | cons code rest ih =>
    intro styles h
    unfold buildStyles at h
    cases h1 : styleOfCode f i code with
    | error e => rw [h1] at h; cases h
    | ok l =>
      rw [h1] at h
      cases h2 : buildStyles f i rest with
      | error e => rw [h2] at h; cases h
      | ok lr =>
        rw [h2] at h
        cases h
        intro s hs
        rcases List.mem_append.1 hs with hx | hx
        · exact styleOfCode_no_lt h1 s hx
        · exact ih h2 s hx

lemma joinSemi_no_lt :
    ∀ (styles : List (List Char)), (∀ s ∈ styles, '<' ∉ s) → '<' ∉ joinSemi styles := by
  intro styles
  induction styles with
  | nil => intro _; simp [joinSemi]
  | cons s rest ih =>
    intro h
    cases rest with
    | nil => simpa [joinSemi] using h s (List.mem_cons_self s [])
    | cons t ts =>
      intro hmem
      simp only [joinSemi] at hmem
      rcases List.mem_append.1 hmem with hx | hx
      · exact h s (List.mem_cons_self s (t :: ts)) hx
      · rcases List.mem_cons.1 hx with h1 | h2
        · exact absurd h1 (by decide)
        · exact ih (fun y hy => h y (List.mem_cons_of_mem s hy)) h2

lemma spanMarkup_no_close (styles : List (List Char))
    (h : ∀ s ∈ styles, '<' ∉ s) :
    occursIn (pyStr "</span>") (spanMarkup styles) = false := by
  have hspan : spanMarkup styles =
      '<' :: ('s' :: (pyStr "pan style=\"" ++ (joinSemi styles ++ pyStr "\">"))) := rfl
  have hpat : pyStr "</span>" = '<' :: pyStr "/span>" := rfl
  rw [hspan, hpat]
  have hrest : '<' ∉ 's' :: (pyStr "pan style=\"" ++ (joinSemi styles ++ pyStr "\">")) := by
    intro hm
    rcases List.mem_cons.1 hm with h0 | hm2
    · exact absurd h0 (by decide)
    rcases List.mem_append.1 hm2 with ha | hb
    · exact absurd ha (by decide)
    rcases List.mem_append.1 hb with hc | hd
    · exact joinSemi_no_lt styles h hc
    · exact absurd hd (by decide)
  have h1 : ('<' :: pyStr "/span>").isPrefixOf
      ('<' :: ('s' :: (pyStr "pan style=\"" ++ (joinSemi styles ++ pyStr "\">")))) = false := by
    have hp2 : pyStr "/span>" = '/' :: pyStr "span>" := rfl
    rw [hp2]
    simp [List.isPrefixOf]
  have h2 := occursIn_head_ne '<' (pyStr "/span>") _ hrest
  show (('<' :: pyStr "/span>").isPrefixOf _ ||
    occursIn ('<' :: pyStr "/span>") ('s' :: (pyStr "pan style=\"" ++ (joinSemi styles ++ pyStr "\">")))) = false
  rw [h1, h2]
  rfl

/-! Helper lemmas about the whitespace-encoding passes. -/

lemma nbsp_succ (n : Nat) : nbsp (n + 1) = pyStr "&nbsp;" ++ nbsp n := by
  simp [nbsp, List.replicate_succ]

lemma nbsp_add (a b : Nat) : nbsp (a + b) = nbsp a ++ nbsp b := by
  unfold nbsp
  rw [List.replicate_add, List.flatten_append]

lemma indentPass_true_spaces : ∀ (n : Nat) (rest : List Char),
    indentPass true (List.replicate n ' ' ++ rest) = nbsp n ++ indentPass true rest := by
  intro n
  induction n with
  | zero => intro rest; simp [nbsp]
  | succ n ih =>
    intro rest
    rw [List.replicate_succ, List.cons_append]
    show indentPass true (' ' :: (List.replicate n ' ' ++ rest)) = _
    rw [nbsp_succ, List.append_assoc, ← ih rest]
    simp [indentPass]

lemma runsPass_true_space (xs : List Char) :
    runsPass true (' ' :: xs) = pyStr "&nbsp;" ++ runsPass true xs := by
  cases xs with
  | nil => rfl
  | cons d rest => simp [runsPass]

lemma runsPass_true_spaces : ∀ (n : Nat) (rest : List Char),
    runsPass true (List.replicate n ' ' ++ rest) = nbsp n ++ runsPass true rest := by
  intro n
  induction n with
  | zero => intro rest; simp [nbsp]
  | succ n ih =>
    intro rest
    rw [List.replicate_succ, List.cons_append, runsPass_true_space, ih, nbsp_succ,
      List.append_assoc]

lemma runsPass_false_run (n : Nat) (rest : List Char) (h : 2 ≤ n) :
    runsPass false (List.replicate n ' ' ++ rest) = nbsp n ++ runsPass true rest := by
  obtain ⟨k, rfl⟩ : ∃ k, n = 2 + k := ⟨n - 2, by omega⟩
  have h2 : List.replicate (2 + k) ' ' ++ rest = ' ' :: ' ' :: (List.replicate k ' ' ++ rest) := by
    rw [List.replicate_add]
    simp
  rw [h2]
  have hstep : runsPass false (' ' :: ' ' :: (List.replicate k ' ' ++ rest)) =
      pyStr "&nbsp;&nbsp;" ++ runsPass true (List.replicate k ' ' ++ rest) := by
    simp [runsPass]
  rw [hstep, runsPass_true_spaces k rest, nbsp_add]
  have hn2 : nbsp 2 = pyStr "&nbsp;&nbsp;" := rfl
  rw [hn2, List.append_assoc]

lemma runsPass_false_single (c : Char) (rest : List Char) (h : c ≠ ' ') :
    runsPass false (' ' :: c :: rest) = ' ' :: runsPass false (c :: rest) := by
  simp [runsPass, h]

/-! Theorems settling the claims. -/

/-- C1: evaluation of the reset handling at the failing input.  For the
token `ESC[m` the code body is the empty string, and Python's
`''.split(';')` yields `['']`, not `[]`; hence neither `'0' in
ansi_codes` nor `not ansi_codes` holds and, contrary to the claim (and
to the comment in the source that says `ESC[m` acts like a reset code),
no closing `</span>` is emitted — the token contributes nothing.  A code
list that is exactly `['0']` does emit the unconditional `</span>`. -/
theorem reset_close_eval :
    splitSemi [] = [[]] ∧
    ansiPiece (splitSemi []) = Except.ok [] ∧
    ansiPiece [pyStr "0"] = Except.ok (pyStr "</span>") ∧
    convertE (pyStr "\x1b[m") true 4 = Except.ok [] :=
  ⟨rfl, rfl, rfl, rfl⟩

/-- C2 (counterexample): on the input `"\x1b[1ma\x1b[4mb"` the second,
non-reset SGR sequence opens a new span without closing the first one:
the output contains two `<span` openers and no `</span>` at all, so the
claimed invariant (at most one open style scope) fails. -/
theorem double_span_counterexample :
    convertE (pyStr "\x1b[1ma\x1b[4mb") true 4 =
      Except.ok (pyStr "<code><span style=\"font-weight:bold\">a<span style=\"text-decoration:underline\">b</code>") ∧
    countOcc (pyStr "<span")
      (pyStr "<code><span style=\"font-weight:bold\">a<span style=\"text-decoration:underline\">b</code>") = 2 ∧
    occursIn (pyStr "</span>")
      (pyStr "<code><span style=\"font-weight:bold\">a<span style=\"text-decoration:underline\">b</code>") = false :=
  ⟨rfl, rfl, rfl⟩

/-- C2 (amended): the contribution of an escape-sequence token contains
a `</span>` exactly when its code list satisfies the reset condition;
a non-reset sequence never closes the previously open scope, so
consecutive non-reset sequences leave earlier spans open. -/
theorem ansiPiece_close_iff_reset (ansi_codes : List (List Char)) (piece : List Char)
    (h : ansiPiece ansi_codes = Except.ok piece) :
    occursIn (pyStr "</span>") piece = resetCond ansi_codes := by
  unfold ansiPiece at h
  cases hb : buildStyles (ansi_codes.contains (pyStr "2"))
      (ansi_codes.contains (pyStr "7")) ansi_codes with
  | error e => rw [hb] at h; cases h
  | ok styles =>
    rw [hb] at h
    dsimp only at h
    cases h
    cases hr : resetCond ansi_codes with
    | true =>
      exact occursIn_self_append _ _
    | false =>
      by_cases hst : styles.isEmpty
      · rw [if_pos hst]
        rfl
      · rw [if_neg hst]
        show occursIn (pyStr "</span>") (spanMarkup styles) = false
        exact spanMarkup_no_close styles (buildStyles_no_lt hb)

/-- Witness for C2's amended theorem at the concrete code list `['0']`,
whose piece is exactly the closing tag. -/
theorem ansiPiece_close_iff_reset_witness :
    occursIn (pyStr "</span>") (pyStr "</span>") = resetCond [pyStr "0"] :=
  ansiPiece_close_iff_reset [pyStr "0"] (pyStr "</span>") rfl

/-- C3: the known example converts to exactly the documented structural
shape, with the palette entry `#006FB8` for blue: the span opens right
before `birds`, closes right after it, and the anchor carries
`http://` only in the `href` attribute while the visible text stays
`www.eelstheband.com`. -/
theorem convert_known_example :
    convertE (pyStr "I like \x1b[1;34mbirds\x1b[0m - www.eelstheband.com") true 4 =
      Except.ok (pyStr "<code>I like <span style=\"font-weight:bold;color:#006FB8\">birds</span> - <a href=\"http://www.eelstheband.com\" style=\"color:inherit\">www.eelstheband.com</a></code>") :=
  rfl

/-- C4: evaluation of `convert` at the failing input `ESC[3²m`.
Python's `str.isdigit` accepts the superscript two (U+00B2,
`Numeric_Type=Digit`), so the guard `code.isdigit() and len(code) == 2`
passes, but `int(code[1])` then raises `ValueError` because `int()`
only accepts decimal digits — `convert` is not total. -/
theorem convert_superscript_digit_raises :
    pyIsDigit '²' = true ∧
    convertE (pyStr "\x1b[3²m") true 4 = Except.error () :=
  ⟨rfl, rfl⟩

/-- C5: for each base colour index, the code list `['7', '3i']`
(inverse video) emits a `background-color` declaration equal to the
base palette entry and a `color` declaration chosen by the luminance
rule `0.299 R + 0.587 G + 0.114 B > 186` (black above the threshold,
white otherwise). -/
theorem inverse_video_property (i : Nat) (h : i < 8) :
    ∃ r g b : Nat,
      parse_hex_color (EIGHT_COLOR_PALETTE.getD i []) = some (r, g, b) ∧
      ansiPiece [pyStr "7", ['3', Char.ofNat (48 + i)]] =
        Except.ok (pyStr "<span style=\"background-color:" ++
          EIGHT_COLOR_PALETTE.getD i [] ++ pyStr ";color:" ++
          (if 186000 < 299 * r + 587 * g + 114 * b then pyStr "#000" else pyStr "#FFF") ++
          pyStr "\">") := by
  interval_cases i
  · exact ⟨1, 1, 1, rfl, rfl⟩
  · exact ⟨222, 56, 43, rfl, rfl⟩
  · exact ⟨57, 181, 74, rfl, rfl⟩
  · exact ⟨255, 199, 6, rfl, rfl⟩
  · exact ⟨0, 111, 184, rfl, rfl⟩
  · exact ⟨118, 38, 113, rfl, rfl⟩
  · exact ⟨44, 181, 233, rfl, rfl⟩
  · exact ⟨204, 204, 204, rfl, rfl⟩

/-- Witness for C5 at the blue index 4. -/
theorem inverse_video_property_witness :
    ∃ r g b : Nat,
      parse_hex_color (EIGHT_COLOR_PALETTE.getD 4 []) = some (r, g, b) ∧
      ansiPiece [pyStr "7", ['3', Char.ofNat (48 + 4)]] =
        Except.ok (pyStr "<span style=\"background-color:" ++
          EIGHT_COLOR_PALETTE.getD 4 [] ++ pyStr ";color:" ++
          (if 186000 < 299 * r + 587 * g + 114 * b then pyStr "#000" else pyStr "#FFF") ++
          pyStr "\">") :=
  inverse_video_property 4 (by norm_num)

/-- C6: for each base colour index, the code list `['2', '3i']` (faint,
no inverse) emits a `color` declaration whose R, G, B channels each
equal `max(0, v - 40)` of the palette entry's channels, and the faint
adjustment is never negative. -/
theorem faint_darkening_bounds (i : Nat) (h : i < 8) :
    (∀ v : Nat, 0 ≤ faintChannel v) ∧
    ∃ r g b : Nat,
      parse_hex_color (EIGHT_COLOR_PALETTE.getD i []) = some (r, g, b) ∧
      ansiPiece [pyStr "2", ['3', Char.ofNat (48 + i)]] =
        Except.ok (pyStr "<span style=\"color:#" ++
          toHex2 (max 0 ((r : Int) - 40)).toNat ++
          toHex2 (max 0 ((g : Int) - 40)).toNat ++
          toHex2 (max 0 ((b : Int) - 40)).toNat ++ pyStr "\">") := by
  refine ⟨fun v => le_max_left 0 _, ?_⟩
  interval_cases i
  · exact ⟨1, 1, 1, rfl, rfl⟩
  · exact ⟨222, 56, 43, rfl, rfl⟩
  · exact ⟨57, 181, 74, rfl, rfl⟩
  · exact ⟨255, 199, 6, rfl, rfl⟩
  · exact ⟨0, 111, 184, rfl, rfl⟩
  · exact ⟨118, 38, 113, rfl, rfl⟩
  · exact ⟨44, 181, 233, rfl, rfl⟩
  · exact ⟨204, 204, 204, rfl, rfl⟩

/-- Witness for C6 at the red index 1. -/
theorem faint_darkening_bounds_witness :
    (∀ v : Nat, 0 ≤ faintChannel v) ∧
    ∃ r g b : Nat,
      parse_hex_color (EIGHT_COLOR_PALETTE.getD 1 []) = some (r, g, b) ∧
      ansiPiece [pyStr "2", ['3', Char.ofNat (48 + 1)]] =
        Except.ok (pyStr "<span style=\"color:#" ++
          toHex2 (max 0 ((r : Int) - 40)).toNat ++
          toHex2 (max 0 ((g : Int) - 40)).toNat ++
          toHex2 (max 0 ((b : Int) - 40)).toNat ++ pyStr "\">") :=
  faint_darkening_bounds 1 (by norm_num)

/-- C8: an escape sequence whose colour code has an out-of-range palette
index, such as `ESC[39m` (index 9 against the 8-entry palette), raises
no error, emits no colour declaration, and contributes empty markup. -/
theorem out_of_range_color_index :
    ansiPiece [pyStr "39"] = Except.ok [] ∧
    convertE (pyStr "\x1b[39m") true 4 = Except.ok (pyStr "<code></code>") :=
  ⟨rfl, rfl⟩

/-- C9: in the whitespace encoding, every leading-space run becomes one
`&nbsp;` per space, every interior run of two or more spaces becomes
the same number of `&nbsp;`, and single interior spaces stay plain;
in particular `convert("  indented")`, `convert("a b")` and
`convert("a   b")` produce the documented outputs. -/
theorem whitespace_encoding :
    (∀ (n : Nat) (rest : List Char),
      indentPass true (List.replicate n ' ' ++ rest) = nbsp n ++ indentPass true rest) ∧
    (∀ (n : Nat) (rest : List Char), 2 ≤ n →
      runsPass false (List.replicate n ' ' ++ rest) = nbsp n ++ runsPass true rest) ∧
    (∀ (c : Char) (rest : List Char), c ≠ ' ' →
      runsPass false (' ' :: c :: rest) = ' ' :: runsPass false (c :: rest)) ∧
    convertE (pyStr "  indented") true 4 = Except.ok (pyStr "<code>&nbsp;&nbsp;indented</code>") ∧
    convertE (pyStr "a b") true 4 = Except.ok (pyStr "<code>a b</code>") ∧
    convertE (pyStr "a   b") true 4 = Except.ok (pyStr "<code>a&nbsp;&nbsp;&nbsp;b</code>") :=
  ⟨indentPass_true_spaces, runsPass_false_run, runsPass_false_single, rfl, rfl, rfl⟩

/-- Witness for C9: the universally quantified parts applied at
concrete inputs, with their hypotheses discharged. -/
theorem whitespace_encoding_witness :
    runsPass false (List.replicate 3 ' ' ++ pyStr "b") = nbsp 3 ++ runsPass true (pyStr "b") ∧
    runsPass false (' ' :: 'b' :: []) = ' ' :: runsPass false ('b' :: []) :=
  ⟨whitespace_encoding.2.1 3 (pyStr "b") (by norm_num),
   whitespace_encoding.2.2.1 'b' [] (by decide)⟩

/-- C10: a `0` appearing together with other recognised codes (here
`ESC[0;1;31m`) first emits the closing `</span>` and then, for the same
token, a new opening span built from the remaining codes — the reset
does not suppress the other codes. -/
theorem reset_combined_with_styles :
    ansiPiece (splitSemi (pyStr "0;1;31")) =
      Except.ok (pyStr "</span><span style=\"font-weight:bold;color:#DE382B\">") ∧
    convertE (pyStr "\x1b[0;1;31mx") true 4 =
      Except.ok (pyStr "<code></span><span style=\"font-weight:bold;color:#DE382B\">x</code>") :=
  ⟨rfl, rfl⟩
